import Mathlib

/-!
Verification of the SecuFix dependency-scanning engine.

The JavaScript source is shallowly embedded: strings are Lean `String`s
manipulated through structural `List Char` helpers (mirroring JS string
primitives such as `split`, `trim` and lexicographic `<`), network calls
(the OSS Index vulnerability oracle, the npm/PyPI registries) are explicit
function parameters, and `JSON.parse` / `JSON.stringify` — platform
builtins, not repository code — are abstracted as a codec parameter.
JavaScript numbers that carry CVSS scores are modelled as `Option ℚ`
(`none` is an absent, i.e. `undefined`, score).
-/

namespace Secufix

/-- JS string split on a single-character separator: `s.split(sep)`. -/
def splitChar (sep : Char) : List Char → List (List Char)
  | [] => [[]]
  | c :: rest =>
    if c = sep then
      [] :: splitChar sep rest
    else
      match splitChar sep rest with
      | [] => [[c]]
      | seg :: segs => (c :: seg) :: segs

/-- JS string split on the two-character separator used by the source,
`line.split("==")`, scanning left to right for non-overlapping `==`. -/
def splitEqEq : List Char → List (List Char)
  | [] => [[]]
  | '=' :: '=' :: rest => [] :: splitEqEq rest
  | c :: rest =>
    match splitEqEq rest with
    | [] => [[c]]
    | seg :: segs => (c :: seg) :: segs

/-- JS `array.join(sep)` for a single-character separator. -/
def intercalChar (sep : Char) : List (List Char) → List Char
  | [] => []
  | [l] => l
  | l :: ls => l ++ sep :: intercalChar sep ls

/-- JS `line.trim()`: strip whitespace from both ends. -/
def jsTrim (l : List Char) : List Char :=
  ((l.dropWhile Char.isWhitespace).reverse.dropWhile Char.isWhitespace).reverse

/-- JS code-unit lexicographic `<` on strings (as char lists). -/
def jsLtChars : List Char → List Char → Bool
  | [], [] => false
  | [], _ :: _ => true
  | _ :: _, [] => false
  | a :: as, b :: bs =>
    if a < b then true
    else if b < a then false
    else jsLtChars as bs

/-- The non-strict counterpart of `jsLtChars`, on `String`; this is the
order the JS default `Array.prototype.sort()` realizes. -/
def jsLe (a b : String) : Prop :=
  jsLtChars b.data a.data = false

instance : DecidableRel jsLe := fun _ _ =>
  inferInstanceAs (Decidable (_ = false))

/-- JS truthiness of `a || b` for an optional string `a` (`undefined` and
the empty string are falsy). -/
def jsOrElse (a b : Option String) : Option String :=
  match a with
  | some s => if s = "" then b else some s
  | none => b

/-- JS `v.cvssScore >= t` where the score may be `undefined`
(`undefined >= t` evaluates to `false`). -/
def jsGeQ (s : Option ℚ) (t : ℚ) : Bool :=
  match s with
  | some x => decide (t ≤ x)
  | none => false

/-- One vulnerability record as returned by the OSS Index oracle. -/
structure VulnRecord where
  title : String
  description : String
  cvssScore : Option ℚ
  cve : Option String
  reference : Option String
deriving DecidableEq

/-- One per-coordinate component report in the oracle's response array. -/
structure ComponentReport where
  vulnerabilities : List VulnRecord
deriving DecidableEq

/-- Outcome of one oracle round-trip, from `securityScanner.js`'s point of
view: a parsed response body, an HTTP error status (`error.response`), a
no-response network error (`error.request`), or any other thrown error. -/
inductive OracleOutcome where
  | ok (data : List ComponentReport)
  | httpError (status : ℕ)
  | networkError
  | otherError (msg : String)
deriving DecidableEq

/-- The JS runtime's `error.message` for each failure outcome. -/
def outcomeMessage : OracleOutcome → String
  | .ok _ => ""
  | .httpError status => "Request failed with status code " ++ toString status
  | .networkError => "Network Error"
  | .otherError msg => msg

/-- One vulnerability finding produced by the scanner (`securityScanner.js`).
Fields that the source only sets on some findings are `Option`s. -/
structure Finding where
  package : String
  version : String
  severity : String
  title : String
  description : String
  cvssScore : Option ℚ := none
  cve : Option String := none
  reference : Option String := none
  error : Option String := none
deriving DecidableEq

/-- Retry configuration of `securityScanner.js`. -/
def MAX_RETRIES : ℕ := 3

/-- Base backoff delay (milliseconds) of `securityScanner.js`. -/
def RETRY_DELAY_MS : ℕ := 2000

/-- Embedding of the per-vulnerability mapping inside `scanDependency`:
severity is bucketed by `cvssScore >= 7 ? "high" : cvssScore >= 4 ?
"medium" : "low"`. -/
def vulnToFinding (pkg ver : String) (v : VulnRecord) : Finding :=
  { package := pkg
    version := ver
    severity :=
      if jsGeQ v.cvssScore 7 then "high"
      else if jsGeQ v.cvssScore 4 then "medium"
      else "low"
    title := v.title
    description := v.description
    cvssScore := v.cvssScore
    cve := v.cve
    reference := v.reference }

/-- The synthetic finding returned when the oracle's response shape is
unexpected. -/
def unexpectedShapeFinding (pkg ver : String) : Finding :=
  { package := pkg
    version := ver
    severity := "unknown"
    title := "Scan Error"
    description := "Unexpected response format from vulnerability database" }

/-- The synthetic finding returned when the scan fails after all retries. -/
def scanFailFinding (pkg ver msg : String) : Finding :=
  { package := pkg
    version := ver
    severity := "unknown"
    title := "Scan Error"
    description := "Vulnerability scan failed after multiple attempts. Manual review recommended."
    error := some msg }

/-- The observable behaviour of one `scanDependency` call: the findings it
returns, how many oracle requests it issued, and the backoff delays it
slept between them. -/
structure ScanTrace where
  findings : List Finding
  attempts : ℕ
  delays : List ℕ
deriving DecidableEq

/-- Embedding of `scanDependency` from `securityScanner.js`. The oracle is
a function from the attempt's `retryCount` to an outcome. On a 429, a 5xx,
or a network error it waits `RETRY_DELAY_MS * (retryCount + 1)` and
recurses with `retryCount + 1` while `retryCount < MAX_RETRIES`; otherwise
it degrades to a synthetic `unknown` finding. -/
def scanDependencyGo (oracle : ℕ → OracleOutcome) (pkg ver : String)
    (retryCount : ℕ) : ScanTrace :=
  match oracle retryCount with
  | .ok data =>
    match data with
    | [] => ⟨[unexpectedShapeFinding pkg ver], 1, []⟩
    | report :: _ =>
      if report.vulnerabilities.length > 0 then
        ⟨report.vulnerabilities.map (vulnToFinding pkg ver), 1, []⟩
      else
        ⟨[], 1, []⟩
  | .httpError status =>
    if hr : status = 429 ∧ retryCount < MAX_RETRIES then
      let waitTime := RETRY_DELAY_MS * (retryCount + 1)
      let rest := scanDependencyGo oracle pkg ver (retryCount + 1)
      ⟨rest.findings, rest.attempts + 1, waitTime :: rest.delays⟩
    else if hs : 500 ≤ status ∧ retryCount < MAX_RETRIES then
      let waitTime := RETRY_DELAY_MS * (retryCount + 1)
      let rest := scanDependencyGo oracle pkg ver (retryCount + 1)
      ⟨rest.findings, rest.attempts + 1, waitTime :: rest.delays⟩
    else
      ⟨[scanFailFinding pkg ver (outcomeMessage (.httpError status))], 1, []⟩
  | .networkError =>
    if hn : retryCount < MAX_RETRIES then
      let waitTime := RETRY_DELAY_MS * (retryCount + 1)
      let rest := scanDependencyGo oracle pkg ver (retryCount + 1)
      ⟨rest.findings, rest.attempts + 1, waitTime :: rest.delays⟩
    else
      ⟨[scanFailFinding pkg ver (outcomeMessage .networkError)], 1, []⟩
  | .otherError msg =>
    ⟨[scanFailFinding pkg ver (outcomeMessage (.otherError msg))], 1, []⟩
termination_by MAX_RETRIES - retryCount
decreasing_by
  · omega
  · omega
  · omega

/-- Embedding of a top-level `scanDependency(packageName, version)` call,
which starts with `retryCount = 0`. -/
def scanDependency (oracle : ℕ → OracleOutcome) (pkg ver : String) : ScanTrace :=
  scanDependencyGo oracle pkg ver 0

/-- The result of `JSON.parse` on a `package.json`, restricted to the two
sections the engine reads. `none` models an absent section (the source
guards both with `packageJson.dependencies || ...` / truthiness checks). -/
structure PackageJson where
  dependencies : Option (List (String × String))
  devDependencies : Option (List (String × String))

/-- Abstraction of the platform's `JSON.parse` / `JSON.stringify` pair
(builtins, not repository code): `parse` throws (`.error`) on malformed
input, `stringify` re-serializes a whole `package.json` object. -/
structure JsonCodec where
  parse : String → Except String PackageJson
  stringify : PackageJson → String

/-- JS object spread `\x7b...a, ...b\x7d` restricted to string-valued keys:
keys of `a` keep their positions (with `b`'s value when the key is
overridden), followed by the keys of `b` not present in `a`. -/
def spreadMerge (a b : List (String × String)) : List (String × String) :=
  a.map (fun p =>
    match b.lookup p.1 with
    | some v => (p.1, v)
    | none => p) ++
  b.filter (fun q => ¬ a.any (fun p => p.1 = q.1))

/-- The merged dependency map `\x7b...dependencies, ...devDependencies\x7d`
that both the scanner and the secure-dependency service build. -/
def allDeps (pj : PackageJson) : List (String × String) :=
  spreadMerge (pj.dependencies.getD []) (pj.devDependencies.getD [])

/-- Normalization used by `fetchSecureDependencies` for `package.json`:
`version.replace(/[^0-9.]/g, '')`, dropping every character other than a
digit or a dot. -/
def stripNonVersionChars (v : String) : String :=
  ⟨v.data.filter (fun c => c.isDigit ∨ c = '.')⟩

/-- Normalization used by `scanPackageJson` in `securityScanner.js`:
`versionRange.replace(/[\x5e~]/g, '')`, dropping only carets and tildes. -/
def scanNormalize (v : String) : String :=
  ⟨v.data.filter (fun c => ¬ (c = '^' ∨ c = '~'))⟩

/-- One upgrade recommendation produced by `fetchSecureDependencies`. -/
structure Recommendation where
  packageName : String
  currentVersion : String
  secureVersion : String
  updateCommand : String
  isSecure : Bool
deriving DecidableEq

/-- The regex character class `[a-zA-Z0-9_.-]` of the requirements-line
pattern in `securityScanner.js`. -/
def isReqChar (c : Char) : Bool :=
  c.isAlphanum ∨ c = '_' ∨ c = '.' ∨ c = '-'

/-- The strict `major.minor.patch` pattern `\d+\.\d+\.\d+` (anchored at
both ends) that `fetchSecureVersion` filters registry versions with. -/
def matchesStrictSemver (l : List Char) : Bool :=
  let d1 := l.takeWhile Char.isDigit
  if d1.isEmpty then false
  else
    match l.drop d1.length with
    | '.' :: r2 =>
      let d2 := r2.takeWhile Char.isDigit
      if d2.isEmpty then false
      else
        match r2.drop d2.length with
        | '.' :: r4 => ¬ r4.isEmpty ∧ r4.all Char.isDigit
        | _ => false
    | _ => false

/-- Embedding of the npm branch of `fetchSecureVersion`
(`secureDependencies.js`): given the registry's published version list (in
response order), filter to strict `major.minor.patch` strings, keep those
strictly greater than `currentVersion` by JS string comparison, sort
(JS default lexicographic sort), and take the first; `||` falls back to
the last element of the unfiltered, unsorted published list. -/
def npmSecureVersion (versions : List String) (currentVersion : String) : Option String :=
  let newerVersions :=
    List.insertionSort jsLe
      ((versions.filter (fun v => matchesStrictSemver v.data)).filter
        (fun v => jsLtChars currentVersion.data v.data))
  jsOrElse newerVersions.head? versions.getLast?

/-- The `(packageName, version)` list that `fetchSecureDependencies`
builds before its resolver loop: the merged `package.json` sections with
`[^0-9.]` stripped from each version (the parse may throw), or the
`==`-separated `requirements.txt` lines, or the empty list for any other
file name. -/
def fetchSecureDependenciesDeps (codec : JsonCodec) (fileName content : String) :
    Except String (List (String × String)) :=
  if fileName = "package.json" then
    match codec.parse content with
    | .error e => .error e
    | .ok pj => .ok ((allDeps pj).map (fun p => (p.1, stripNonVersionChars p.2)))
  else if fileName = "requirements.txt" then
    .ok (((splitChar '\n' content.data).map jsTrim).filterMap (fun line =>
      if line.isEmpty ∨ line.head? = some '#' then none
      else
        match splitEqEq line with
        | [a, b] => some (⟨a⟩, ⟨b⟩)
        | _ => none))
  else
    .ok []

/-- One iteration of the resolver loop in `fetchSecureDependencies`:
`isSecure` is the JS `===` of the resolved secure version against the
normalized current version. -/
def mkRecommendation (fsv : String → String → String → String × String)
    (ecosystem : String) (p : String × String) : Recommendation :=
  let sv := fsv p.1 p.2 ecosystem
  { packageName := p.1
    currentVersion := p.2
    secureVersion := sv.1
    updateCommand := sv.2
    isSecure := sv.1 == p.2 }

/-- Embedding of `fetchSecureDependencies` (`secureDependencies.js`). The
resolver `fsv` abstracts the awaited `fetchSecureVersion(name, version,
ecosystem)` network call, returning `(secureVersion, updateCommand)`.
`JSON.parse` may throw on a malformed `package.json`, and the function has
no try/catch, so the result is an `Except`. -/
def fetchSecureDependencies (fsv : String → String → String → String × String)
    (codec : JsonCodec) (fileName content : String) :
    Except String (List Recommendation) :=
  (fetchSecureDependenciesDeps codec fileName content).map (fun dependencies =>
    dependencies.map
      (mkRecommendation fsv (if fileName = "requirements.txt" then "pypi" else "npm")))

/-- Property names a plain JS object inherits from `Object.prototype`: a
bare property read `obj[k]` for one of these returns a truthy value (a
built-in function, or the prototype object itself for `__proto__`) even
when `obj` has no own property named `k`. Both `secureMap` (an object
literal) and the sections parsed out of `package.json` inherit these. -/
def objectProtoKeys : List String :=
  ["constructor", "hasOwnProperty", "isPrototypeOf", "propertyIsEnumerable",
   "toLocaleString", "toString", "valueOf",
   "__defineGetter__", "__defineSetter__", "__lookupGetter__", "__lookupSetter__",
   "__proto__"]

/-- The string a template literal interpolates for an inherited
`Object.prototype` member (Node/V8): built-in methods stringify as
`function <name>() \x7b [native code] \x7d`, and the object returned by
the `__proto__` accessor as `[object Object]`. -/
def protoMemberString (k : String) : String :=
  if k = "__proto__" then "[object Object]"
  else "function " ++ k ++ "() \x7b [native code] \x7d"

/-- The own properties of the `secureMap` object that `generateSecureFile`
builds by a reduce over the recommendations: a later entry for the same
package overwrites an earlier one, and the assignment
`map["__proto__"] = v` with a string `v` hits the inherited accessor and
is a silent no-op that creates no own property. -/
def secureMapOwn (recs : List Recommendation) (k : String) : Option String :=
  (((recs.filter (fun r => r.packageName ≠ "__proto__")).reverse.find?
    (fun r => r.packageName = k)).map (fun r => r.secureVersion))

/-- One line of the `requirements.txt` rewrite in `generateSecureFile`:
split on `==`; anything that is not exactly two parts passes through.
The guard `secureMap[packageName] ?` is a JS property read: a non-empty
own entry rewrites the line with its value, an empty own entry is falsy
and passes the line through, and when no own entry exists the read falls
through to `Object.prototype`, whose members are truthy — such a line is
rewritten with the stringified inherited member. -/
def rewriteReqLine (recs : List Recommendation) (line : List Char) : List Char :=
  match splitEqEq line with
  | [a, _] =>
    match secureMapOwn recs ⟨a⟩ with
    | some sv => if sv = "" then line else a ++ '=' :: '=' :: sv.data
    | none =>
      if objectProtoKeys.contains ⟨a⟩ then
        a ++ '=' :: '=' :: (protoMemberString ⟨a⟩).data
      else line
  | _ => line

/-- Whether the `requirements.txt` rewrite substitutes a line: the line
splits into exactly two parts on `==` and the property read for the
leading token is truthy — a non-empty own recommendation entry, or, when
no own entry exists, an inherited `Object.prototype` member. -/
def reqLineRewritten (recs : List Recommendation) (line : List Char) : Bool :=
  match splitEqEq line with
  | [a, _] =>
    match secureMapOwn recs ⟨a⟩ with
    | some sv => sv ≠ ""
    | none => objectProtoKeys.contains ⟨a⟩
  | _ => false

/-- JS truthiness of the property read `deps[k]` on a section parsed from
`package.json`: a non-empty own entry, or, when no own entry exists, a
truthy member inherited from `Object.prototype`. -/
def truthyKey (deps : List (String × String)) (k : String) : Bool :=
  match deps.lookup k with
  | some v => v ≠ ""
  | none => objectProtoKeys.contains k

/-- The JS assignment `deps[k] = v` on a parsed section: an own entry is
overwritten in place; with no own entry a new one is appended in
insertion order, except that assigning a string to `__proto__` hits the
inherited accessor and is a silent no-op. -/
def setKey (deps : List (String × String)) (k v : String) : List (String × String) :=
  if (deps.lookup k).isSome then
    deps.map (fun p => if p.1 = k then (k, v) else p)
  else if k = "__proto__" then deps
  else deps ++ [(k, v)]

/-- In-place update of one section of `package.json`: for each
recommendation whose package name reads truthy on the section, the value
becomes `"^" ++ secureVersion`. -/
def applyRecs (recs : List Recommendation) (deps : List (String × String)) :
    List (String × String) :=
  recs.foldl (fun d r =>
    if truthyKey d r.packageName then setKey d r.packageName ("^" ++ r.secureVersion)
    else d) deps

/-- Embedding of `generateSecureFile` (`secureDependencies.js`). For
`package.json` it parses (possibly throwing), updates both sections and
re-serializes through the codec; for `requirements.txt` it maps each line
through the rewrite; any other file name returns the content untouched. -/
def generateSecureFile (codec : JsonCodec) (fileName content : String)
    (secureVersions : List Recommendation) : Except String String :=
  if fileName = "package.json" then
    match codec.parse content with
    | .error e => .error e
    | .ok pj =>
      let pj1 : PackageJson :=
        { dependencies := pj.dependencies.map (applyRecs secureVersions)
          devDependencies := pj.devDependencies.map (applyRecs secureVersions) }
      .ok (codec.stringify pj1)
  else if fileName = "requirements.txt" then
    .ok ⟨intercalChar '\n' ((splitChar '\n' content.data).map (rewriteReqLine secureVersions))⟩
  else
    .ok content

/-- The synthetic finding `scanPackageJson` (and its siblings) return when
the manifest cannot be parsed. -/
def parseErrorFinding (fileName msg : String) : Finding :=
  { package := fileName
    version := "N/A"
    severity := "unknown"
    title := "Parse Error"
    description := "Failed to parse " ++ fileName ++ ": " ++ msg }

/-- A per-dependency oracle: `(packageName, version, retryCount)` to the
outcome of that request. -/
def DepOracle : Type := String → String → ℕ → OracleOutcome

/-- Embedding of `scanPackageJson` (`securityScanner.js`): parse failure
is caught and degraded to a single `Parse Error` finding; otherwise every
merged dependency is scanned (caret/tilde stripped) and the findings are
concatenated. -/
def scanPackageJson (parse : String → Except String PackageJson)
    (oracle : DepOracle) (content : String) : List Finding :=
  match parse content with
  | .error msg => [parseErrorFinding "package.json" msg]
  | .ok pj =>
    (allDeps pj).flatMap (fun p =>
      let version := scanNormalize p.2
      (scanDependency (oracle p.1 version) p.1 version).findings)

/-- The requirements-line pattern of `securityScanner.js`:
`^([a-zA-Z0-9_.-]+)(?:==|>=|<=|~=|!=|>|<)([a-zA-Z0-9_.-]+)` first, then a
bare package name `^[a-zA-Z0-9_.-]+$` with version `"latest"`. -/
def parseReqLine (line : List Char) : Option (String × String) :=
  let name := line.takeWhile isReqChar
  let rest := line.drop name.length
  let opLen : ℕ :=
    match rest with
    | '=' :: '=' :: _ => 2
    | '>' :: '=' :: _ => 2
    | '<' :: '=' :: _ => 2
    | '~' :: '=' :: _ => 2
    | '!' :: '=' :: _ => 2
    | '>' :: _ => 1
    | '<' :: _ => 1
    | _ => 0
  let ver := (rest.drop opLen).takeWhile isReqChar
  if ¬ name.isEmpty ∧ opLen ≠ 0 ∧ ¬ ver.isEmpty then
    some (⟨name⟩, ⟨ver⟩)
  else if ¬ line.isEmpty ∧ line.all isReqChar then
    some (⟨line⟩, "latest")
  else
    none

/-- Embedding of `scanRequirementsTxt` (`securityScanner.js`): trimmed
non-empty non-comment lines are parsed; dependencies whose version is
`"latest"` are skipped; the rest are scanned and the findings
concatenated. -/
def scanRequirementsTxt (oracle : DepOracle) (content : String) : List Finding :=
  let dependencies :=
    (((splitChar '\n' content.data).map jsTrim).filter
      (fun line => ¬ (line.isEmpty ∨ line.head? = some '#'))).filterMap parseReqLine
  dependencies.flatMap (fun p =>
    if p.2 = "latest" then []
    else (scanDependency (oracle p.1 p.2) p.1 p.2).findings)

/-- The marker finding for the explicitly recognized-but-unsupported
formats in `scanDependencies`. -/
def unsupportedFinding (fileName description : String) : Finding :=
  { package := fileName
    version := "N/A"
    severity := "unknown"
    title := "Unsupported Format"
    description := description }

/-- Embedding of `scanDependencies` (`securityScanner.js`). The pom.xml
scanner is abstracted as a parameter (no claim depends on its internals);
Gradle and Gemfile names yield an explicit `Unsupported Format` marker;
every other unrecognized name yields the empty list. -/
def scanDependencies (pomScan : String → List Finding)
    (parse : String → Except String PackageJson) (oracle : DepOracle)
    (fileName content : String) : List Finding :=
  if fileName = "package.json" then
    scanPackageJson parse oracle content
  else if fileName = "requirements.txt" then
    scanRequirementsTxt oracle content
  else if fileName = "pom.xml" then
    pomScan content
  else if ".gradle".data.isSuffixOf fileName.data ∨ fileName = "build.gradle" then
    [unsupportedFinding fileName "Gradle scanning is not yet implemented."]
  else if fileName = "Gemfile" ∨ fileName = "Gemfile.lock" then
    [unsupportedFinding fileName "Ruby Gemfile scanning is not yet implemented."]
  else
    []

/-- One per-file entry of the `/scan` endpoint's `results` array
(`index.js`), restricted to the fields the aggregation reads. -/
structure FileScanResult where
  fileName : String
  vulnerabilities : List Finding
  secureVersions : List Recommendation
  updatedContent : Option String
deriving DecidableEq

/-- The repository-level summary computed by the `/scan` handler in
`index.js`: `totalVulnerabilities` is a reduce over per-file finding
counts, and the status is `"vulnerable"` when some file has a positive
count. -/
structure RepoSummary where
  totalFiles : ℕ
  totalVulnerabilities : ℕ
  status : String
deriving DecidableEq

/-- Embedding of the summary block of the `/scan` response (`index.js`). -/
def repoSummary (results : List FileScanResult) : RepoSummary :=
  { totalFiles := results.length
    totalVulnerabilities := results.foldl (fun sum r => sum + r.vulnerabilities.length) 0
    status :=
      if results.any (fun r => r.vulnerabilities.length > 0) then "vulnerable"
      else "secure" }

/-- Embedding of the repository status computed by `processRepo`
(`githubService.js`) over the concatenated per-file findings. -/
def processRepoStatus (vulnerabilities : List Finding) : String :=
  if vulnerabilities.length > 0 then "vulnerable" else "secure"

/-- JS string `<` is irreflexive. -/
theorem jsLtChars_irrefl : ∀ a : List Char, jsLtChars a a = false
  | [] => rfl
  | a :: as => by
    simp only [jsLtChars, lt_irrefl a, if_false]
    exact jsLtChars_irrefl as

/-- JS string `<` is asymmetric. -/
theorem jsLtChars_asymm : ∀ a b : List Char,
    jsLtChars a b = true → jsLtChars b a = false
  | [], [], h => by simp [jsLtChars] at h
  | [], _ :: _, _ => rfl
  | _ :: _, [], h => by simp [jsLtChars] at h
  | a :: as, b :: bs, h => by
    simp only [jsLtChars] at h ⊢
    by_cases hab : a < b
    · simp [asymm hab, hab]
    · by_cases hba : b < a
      · simp [hab, hba] at h
      · simp only [hab, hba, if_false] at h ⊢
        exact jsLtChars_asymm as bs h

/-- Two strings neither of which is JS-`<` the other are equal. -/
theorem jsLtChars_connex : ∀ a b : List Char,
    jsLtChars a b = false → jsLtChars b a = false → a = b
  | [], [], _, _ => rfl
  | [], _ :: _, h1, _ => by simp [jsLtChars] at h1
  | _ :: _, [], _, h2 => by simp [jsLtChars] at h2
  | a :: as, b :: bs, h1, h2 => by
    simp only [jsLtChars] at h1 h2
    by_cases hab : a < b
    · simp [hab] at h1
    · by_cases hba : b < a
      · simp [hba] at h2
      · have hav : a = b := le_antisymm (not_lt.mp hba) (not_lt.mp hab)
        subst hav
        simp only [lt_irrefl, if_false] at h1 h2
        exact congrArg (a :: ·) (jsLtChars_connex as bs h1 h2)

/-- JS string `<` is transitive. -/
theorem jsLtChars_trans : ∀ a b c : List Char,
    jsLtChars a b = true → jsLtChars b c = true → jsLtChars a c = true
  | [], [], _, h1, _ => by simp [jsLtChars] at h1
  | _ :: _, [], _, h1, _ => by simp [jsLtChars] at h1
  | _, _ :: _, [], _, h2 => by simp [jsLtChars] at h2
  | [], _ :: _, _ :: _, _, _ => rfl
  | a :: as, b :: bs, c :: cs, h1, h2 => by
    simp only [jsLtChars] at h1 h2 ⊢
    by_cases hab : a < b
    · by_cases hbc : b < c
      · simp [lt_trans hab hbc]
      · by_cases hcb : c < b
        · simp [hbc, hcb] at h2
        · have : b = c := le_antisymm (not_lt.mp hcb) (not_lt.mp hbc)
          subst this
          simp [hab]
    · by_cases hba : b < a
      · simp [hab, hba] at h1
      · have hav : a = b := le_antisymm (not_lt.mp hba) (not_lt.mp hab)
        subst hav
        simp only [lt_irrefl, if_false] at h1
        by_cases hbc : a < c
        · simp [hbc]
        · by_cases hcb : c < a
          · simp [hbc, hcb] at h2
          · have : a = c := le_antisymm (not_lt.mp hcb) (not_lt.mp hbc)
            subst this
            simp only [lt_irrefl, if_false] at h2 ⊢
            exact jsLtChars_trans as bs cs h1 h2

instance : IsTotal String jsLe :=
  ⟨fun a b => by
    unfold jsLe
    cases h : jsLtChars b.data a.data with
    | false => exact Or.inl rfl
    | true => exact Or.inr (jsLtChars_asymm _ _ h)⟩

instance : IsTrans String jsLe :=
  ⟨fun a b c hab hbc => by
    unfold jsLe at hab hbc ⊢
    cases h : jsLtChars c.data a.data with
    | false => rfl
    | true =>
      exfalso
      cases h2 : jsLtChars b.data c.data with
      | true =>
        have hba := jsLtChars_trans _ _ _ h2 h
        rw [hba] at hab
        exact Bool.noConfusion hab
      | false =>
        have hv : b.data = c.data := jsLtChars_connex _ _ h2 hbc
        rw [← hv] at h
        rw [h] at hab
        exact Bool.noConfusion hab⟩

theorem jsLe_refl (a : String) : jsLe a a :=
  jsLtChars_irrefl a.data

/-- C1 (counterexample): the claim maps an absent `cvssScore` to severity
`"unknown"`, but on a vulnerability record whose score is absent the code
evaluates `undefined >= 7` and `undefined >= 4` to `false` and produces
severity `"low"`, not `"unknown"`. -/
theorem C1_claim_counterexample :
    (scanDependency
      (fun _ => .ok [⟨[⟨"Prototype Pollution", "d", none, none, none⟩]⟩])
      "lodash" "4.17.0").findings =
      [{ package := "lodash", version := "4.17.0", severity := "low",
         title := "Prototype Pollution", description := "d" }]
    ∧ ("low" : String) ≠ "unknown" := by
  constructor
  · simp [scanDependency, scanDependencyGo, vulnToFinding, jsGeQ]
  · decide

/-- C1 (amended): for every vulnerability record returned by the oracle,
the finding's severity is `"high"` when the score is present and at least
7, `"medium"` when present and in `[4, 7)`, and `"low"` otherwise — both
when the score is present and below 4 and when it is absent. `"unknown"`
never arises from an oracle vulnerability record (only from synthetic
scan-error findings); in particular 7.0 maps to high, 4.0 to medium and
3.9 to low. -/
theorem C1_severity (pkg ver : String) (oracle : ℕ → OracleOutcome)
    (r0 : ComponentReport) (rest : List ComponentReport)
    (hor : oracle 0 = .ok (r0 :: rest)) (hne : 0 < r0.vulnerabilities.length) :
    (scanDependency oracle pkg ver).findings =
      r0.vulnerabilities.map (vulnToFinding pkg ver)
    ∧ (∀ v : VulnRecord,
        ((vulnToFinding pkg ver v).severity = "high" ↔
          ∃ s, v.cvssScore = some s ∧ 7 ≤ s)
      ∧ ((vulnToFinding pkg ver v).severity = "medium" ↔
          ∃ s, v.cvssScore = some s ∧ 4 ≤ s ∧ s < 7)
      ∧ ((vulnToFinding pkg ver v).severity = "low" ↔
          (v.cvssScore = none ∨ ∃ s, v.cvssScore = some s ∧ s < 4))
      ∧ (vulnToFinding pkg ver v).severity ≠ "unknown")
    ∧ (vulnToFinding pkg ver ⟨"t", "d", some 7, none, none⟩).severity = "high"
    ∧ (vulnToFinding pkg ver ⟨"t", "d", some 4, none, none⟩).severity = "medium"
    ∧ (vulnToFinding pkg ver ⟨"t", "d", some (39/10), none, none⟩).severity = "low"
    ∧ (vulnToFinding pkg ver ⟨"t", "d", none, none, none⟩).severity = "low" := by
  refine ⟨?_, ?_, ?_, ?_, ?_, ?_⟩
  · simp [scanDependency, scanDependencyGo, hor, hne]
  · intro v
    rcases hs : v.cvssScore with _ | s
    · simp [vulnToFinding, jsGeQ, hs]
    · simp only [vulnToFinding, jsGeQ, hs]
      by_cases h7 : (7 : ℚ) ≤ s
      · have h4 : (4 : ℚ) ≤ s := le_trans (by norm_num) h7
        simp [h7, h4]
      · by_cases h4 : (4 : ℚ) ≤ s
        · simp [h7, h4]
          linarith
        · simp [h7, h4]
          linarith
  · norm_num [vulnToFinding, jsGeQ]
  · norm_num [vulnToFinding, jsGeQ]
  · norm_num [vulnToFinding, jsGeQ]
  · norm_num [vulnToFinding, jsGeQ]

/-- C1 (witness): the amended severity theorem applied to a concrete
oracle returning a single vulnerability record. -/
theorem C1_severity_witness :
    ((fun _ : ℕ => OracleOutcome.ok [⟨[⟨"t", "d", some 8, none, none⟩]⟩]) 0
        = OracleOutcome.ok (⟨[⟨"t", "d", some 8, none, none⟩]⟩ :: []))
    ∧ 0 < (ComponentReport.mk [⟨"t", "d", some 8, none, none⟩]).vulnerabilities.length
    ∧ (scanDependency (fun _ => .ok [⟨[⟨"t", "d", some 8, none, none⟩]⟩])
        "lodash" "4.17.0").findings =
        (ComponentReport.mk [⟨"t", "d", some 8, none, none⟩]).vulnerabilities.map
          (vulnToFinding "lodash" "4.17.0") :=
  ⟨rfl, Nat.zero_lt_one,
    (C1_severity "lodash" "4.17.0"
      (fun _ => .ok [⟨[⟨"t", "d", some 8, none, none⟩]⟩])
      ⟨[⟨"t", "d", some 8, none, none⟩]⟩ [] rfl Nat.zero_lt_one).1⟩

/-- C3: when the first four oracle calls all fail with HTTP 429,
`scanDependency` makes exactly 4 attempts (initial plus `MAX_RETRIES = 3`
retries), sleeping `attempt * RETRY_DELAY_MS` before each retry, and
returns exactly one synthetic `Scan Error` finding of severity
`"unknown"` instead of raising. -/
theorem C3_retry_bound (oracle : ℕ → OracleOutcome) (pkg ver : String)
    (h0 : oracle 0 = .httpError 429) (h1 : oracle 1 = .httpError 429)
    (h2 : oracle 2 = .httpError 429) (h3 : oracle 3 = .httpError 429) :
    scanDependency oracle pkg ver =
      ⟨[scanFailFinding pkg ver (outcomeMessage (.httpError 429))], 4,
        [1 * RETRY_DELAY_MS, 2 * RETRY_DELAY_MS, 3 * RETRY_DELAY_MS]⟩
    ∧ (scanFailFinding pkg ver (outcomeMessage (.httpError 429))).severity = "unknown"
    ∧ (scanFailFinding pkg ver (outcomeMessage (.httpError 429))).title = "Scan Error" := by
  refine ⟨?_, rfl, rfl⟩
  simp [scanDependency, scanDependencyGo, h0, h1, h2, h3, MAX_RETRIES, RETRY_DELAY_MS]

/-- C3 (witness): the retry-bound theorem applied to a concrete oracle
that always answers 429. -/
theorem C3_retry_bound_witness :
    ((fun _ : ℕ => OracleOutcome.httpError 429) 0 = OracleOutcome.httpError 429)
    ∧ ((fun _ : ℕ => OracleOutcome.httpError 429) 3 = OracleOutcome.httpError 429)
    ∧ scanDependency (fun _ => .httpError 429) "left-pad" "1.3.0" =
        ⟨[scanFailFinding "left-pad" "1.3.0" (outcomeMessage (.httpError 429))], 4,
          [1 * RETRY_DELAY_MS, 2 * RETRY_DELAY_MS, 3 * RETRY_DELAY_MS]⟩ :=
  ⟨rfl, rfl,
    (C3_retry_bound (fun _ => .httpError 429) "left-pad" "1.3.0" rfl rfl rfl rfl).1⟩

/-- C2: every recommendation `fetchSecureDependencies` produces has
`isSecure = true` exactly when the resolved secure version is
character-for-character equal to the normalized current version — plain
string equality, with no semantic-version comparison. -/
theorem C2_isSecure_string_equality
    (fsv : String → String → String → String × String) (codec : JsonCodec)
    (fileName content : String) (recs : List Recommendation)
    (h : fetchSecureDependencies fsv codec fileName content = .ok recs) :
    ∀ r ∈ recs, (r.isSecure = true ↔ r.secureVersion = r.currentVersion) := by
  intro r hr
  unfold fetchSecureDependencies at h
  cases hd : fetchSecureDependenciesDeps codec fileName content with
  | error e => rw [hd] at h; exact Except.noConfusion h
  | ok deps =>
    rw [hd] at h
    simp only [Except.map, Except.ok.injEq] at h
    subst h
    rcases List.mem_map.mp hr with ⟨p, _, hp⟩
    subst hp
    simp [mkRecommendation, beq_iff_eq]

/-- C2 (witness): a resolver returning `"1.0"` against a normalized
current version `"1.0.0"` — semantically the same version, differently
formatted — yields `isSecure = false`. -/
theorem C2_isSecure_witness :
    fetchSecureDependencies (fun _ _ _ => ("1.0", "cmd"))
      ⟨fun _ => .ok ⟨some [("lodash", "^1.0.0")], none⟩, fun _ => ""⟩
      "package.json" "c" =
      .ok [{ packageName := "lodash", currentVersion := "1.0.0",
             secureVersion := "1.0", updateCommand := "cmd", isSecure := false }]
    ∧ (Recommendation.mk "lodash" "1.0.0" "1.0" "cmd" false
        ∈ [Recommendation.mk "lodash" "1.0.0" "1.0" "cmd" false])
    ∧ ((Recommendation.mk "lodash" "1.0.0" "1.0" "cmd" false).isSecure = true
        ↔ (Recommendation.mk "lodash" "1.0.0" "1.0" "cmd" false).secureVersion
          = (Recommendation.mk "lodash" "1.0.0" "1.0" "cmd" false).currentVersion) :=
  ⟨rfl, List.mem_singleton.mpr rfl,
    C2_isSecure_string_equality (fun _ _ _ => ("1.0", "cmd"))
      ⟨fun _ => .ok ⟨some [("lodash", "^1.0.0")], none⟩, fun _ => ""⟩
      "package.json" "c" _ rfl _ (List.mem_singleton.mpr rfl)⟩

/-- C10 (counterexample): the claim asserts that `1.0.0-beta.1`
normalizes to `1.0.0..1`, but stripping every character outside `[0-9.]`
from `1.0.0-beta.1` leaves `1.0.0.1` — the hyphen and the four letters
are removed and only the single dot of `.1` remains, so no double dot
appears. -/
theorem C10_claim_counterexample :
    stripNonVersionChars "1.0.0-beta.1" = "1.0.0.1"
    ∧ ("1.0.0.1" : String) ≠ "1.0.0..1" :=
  ⟨by decide, by decide⟩

/-- C10 (amended): in `fetchSecureDependencies` for `package.json`, each
dependency's normalized current version is the declared expression with
every character other than `0`-`9` and `.` removed, so `^4.17.0`
normalizes to `4.17.0` but `1.0.0-beta.1` to `1.0.0.1` — still a
different normalization from the scanner's, which strips only carets and
tildes and leaves `1.0.0-beta.1` unchanged. -/
theorem C10_normalization (codec : JsonCodec) (content : String)
    (pj : PackageJson) (hp : codec.parse content = .ok pj) :
    fetchSecureDependenciesDeps codec "package.json" content =
      .ok ((allDeps pj).map (fun p => (p.1, stripNonVersionChars p.2)))
    ∧ stripNonVersionChars "^4.17.0" = "4.17.0"
    ∧ stripNonVersionChars "1.0.0-beta.1" = "1.0.0.1"
    ∧ scanNormalize "1.0.0-beta.1" = "1.0.0-beta.1"
    ∧ stripNonVersionChars "1.0.0-beta.1" ≠ scanNormalize "1.0.0-beta.1"
    ∧ scanNormalize "^4.17.0" = "4.17.0" := by
  refine ⟨?_, by decide, by decide, by decide, by decide, by decide⟩
  unfold fetchSecureDependenciesDeps
  rw [hp]
  rfl

/-- C10 (witness): the normalization theorem applied to a concrete codec
whose parse yields a one-dependency `package.json`. -/
theorem C10_normalization_witness :
    ((⟨fun _ => .ok ⟨some [("x", "^1.0.0-beta.1")], none⟩, fun _ => ""⟩ :
        JsonCodec).parse "c" = .ok ⟨some [("x", "^1.0.0-beta.1")], none⟩)
    ∧ fetchSecureDependenciesDeps
        ⟨fun _ => .ok ⟨some [("x", "^1.0.0-beta.1")], none⟩, fun _ => ""⟩
        "package.json" "c" =
        .ok ((allDeps ⟨some [("x", "^1.0.0-beta.1")], none⟩).map
          (fun p => (p.1, stripNonVersionChars p.2))) :=
  ⟨rfl,
    (C10_normalization ⟨fun _ => .ok ⟨some [("x", "^1.0.0-beta.1")], none⟩, fun _ => ""⟩
      "c" ⟨some [("x", "^1.0.0-beta.1")], none⟩ rfl).1⟩

/-- C7 (code bug): the claim — and the spec's requirement that rewriting
never corrupt unrelated manifest content — say a line with no matching
recommendation passes through verbatim, but `secureMap` is a bare object
literal inheriting from `Object.prototype`, so for the line
`toString==1.2.3` with an empty recommendation list the property read
`secureMap["toString"]` finds the truthy inherited built-in method and
the line is rewritten to its stringification. Ordinary unmatched lines
(a comment, a package name that is not a prototype member) do pass
through verbatim, and the line count is still preserved. -/
theorem C7_proto_chain_bug :
    generateSecureFile ⟨fun _ => .error "", fun _ => ""⟩ "requirements.txt"
      "toString==1.2.3" [] =
      .ok ("toString==" ++ protoMemberString "toString")
    ∧ ("toString==" ++ protoMemberString "toString" : String) ≠ "toString==1.2.3"
    ∧ protoMemberString "toString" = "function toString() \x7b [native code] \x7d"
    ∧ reqLineRewritten [] ("toString==1.2.3" : String).data = true
    ∧ rewriteReqLine [] ("# pinned" : String).data = ("# pinned" : String).data
    ∧ rewriteReqLine [] ("Flask==2.2.3" : String).data = ("Flask==2.2.3" : String).data
    ∧ (((splitChar '\n' ("toString==1.2.3" : String).data).map (rewriteReqLine [])).length
        = (splitChar '\n' ("toString==1.2.3" : String).data).length) :=
  ⟨rfl, by decide, by decide, by decide, by decide, by decide, by decide⟩

/-- C9: for every file name other than `package.json` and
`requirements.txt`, `generateSecureFile` returns the content unchanged. -/
theorem C9_identity (codec : JsonCodec) (fileName content : String)
    (recs : List Recommendation)
    (h1 : fileName ≠ "package.json") (h2 : fileName ≠ "requirements.txt") :
    generateSecureFile codec fileName content recs = .ok content := by
  unfold generateSecureFile
  simp [h1, h2]

/-- C9 (witness): the identity theorem applied to a `pom.xml`. -/
theorem C9_identity_witness :
    ("pom.xml" : String) ≠ "package.json"
    ∧ ("pom.xml" : String) ≠ "requirements.txt"
    ∧ generateSecureFile ⟨fun _ => .error "", fun _ => ""⟩ "pom.xml" "<project/>" []
        = .ok "<project/>" :=
  ⟨by decide, by decide,
    C9_identity ⟨fun _ => .error "", fun _ => ""⟩ "pom.xml" "<project/>" []
      (by decide) (by decide)⟩

/-- C8: on a malformed `package.json`, `scanPackageJson` does not raise:
it returns exactly one synthetic finding titled `Parse Error`, severity
`unknown`, whose description carries the parse error message, and the
dispatcher returns the same for that file (other files are scanned by
independent calls with no shared state). -/
theorem C8_parse_error (pomScan : String → List Finding)
    (parse : String → Except String PackageJson) (oracle : DepOracle)
    (content msg : String) (h : parse content = .error msg) :
    scanPackageJson parse oracle content =
      [{ package := "package.json", version := "N/A", severity := "unknown",
         title := "Parse Error",
         description := "Failed to parse package.json: " ++ msg }]
    ∧ scanDependencies pomScan parse oracle "package.json" content =
      [{ package := "package.json", version := "N/A", severity := "unknown",
         title := "Parse Error",
         description := "Failed to parse package.json: " ++ msg }] := by
  have h1 : scanPackageJson parse oracle content =
      [{ package := "package.json", version := "N/A", severity := "unknown",
         title := "Parse Error",
         description := "Failed to parse package.json: " ++ msg }] := by
    unfold scanPackageJson
    rw [h]
    simp [parseErrorFinding]
  exact ⟨h1, by unfold scanDependencies; simp [h1]⟩

/-- C8 (witness): the parse-error theorem applied to a concrete failing
parse. -/
theorem C8_parse_error_witness :
    ((fun _ : String => (Except.error "Unexpected token o" : Except String PackageJson))
      "not json" = .error "Unexpected token o")
    ∧ scanPackageJson (fun _ => .error "Unexpected token o") (fun _ _ _ => .networkError)
        "not json" =
        [{ package := "package.json", version := "N/A", severity := "unknown",
           title := "Parse Error",
           description := "Failed to parse package.json: " ++ "Unexpected token o" }] :=
  ⟨rfl,
    (C8_parse_error (fun _ => []) (fun _ => .error "Unexpected token o")
      (fun _ _ _ => .networkError) "not json" "Unexpected token o" rfl).1⟩

/-- C5 (counterexample): the claim says every file name outside the
recognized manifest set yields a non-empty result with an unsupported
format marker, but for a `composer.json` — unrecognized, and neither a
Gradle nor a Gemfile name — `scanDependencies` returns the empty list. -/
theorem C5_claim_counterexample :
    scanDependencies (fun _ => []) (fun _ => .error "e") (fun _ _ _ => .networkError)
      "composer.json" "x" = ([] : List Finding) := by
  rfl

/-- C5 (amended): among unrecognized file names, only those ending in
`.gradle` and the exact names `Gemfile` / `Gemfile.lock` produce the
single `Unsupported Format` marker finding (severity `unknown`); every
other unrecognized file name produces the empty list, indistinguishable
from a scanned file with no findings. -/
theorem C5_unsupported_markers (pomScan : String → List Finding)
    (parse : String → Except String PackageJson) (oracle : DepOracle)
    (fileName content : String)
    (h1 : fileName ≠ "package.json") (h2 : fileName ≠ "requirements.txt")
    (h3 : fileName ≠ "pom.xml") :
    ((".gradle".data.isSuffixOf fileName.data ∨ fileName = "build.gradle") →
      scanDependencies pomScan parse oracle fileName content =
        [unsupportedFinding fileName "Gradle scanning is not yet implemented."])
    ∧ (¬ (".gradle".data.isSuffixOf fileName.data ∨ fileName = "build.gradle") →
        (fileName = "Gemfile" ∨ fileName = "Gemfile.lock") →
        scanDependencies pomScan parse oracle fileName content =
          [unsupportedFinding fileName "Ruby Gemfile scanning is not yet implemented."])
    ∧ (¬ (".gradle".data.isSuffixOf fileName.data ∨ fileName = "build.gradle") →
        ¬ (fileName = "Gemfile" ∨ fileName = "Gemfile.lock") →
        scanDependencies pomScan parse oracle fileName content = [])
    ∧ (∀ d, (unsupportedFinding fileName d).severity = "unknown"
          ∧ (unsupportedFinding fileName d).title = "Unsupported Format") := by
  refine ⟨?_, ?_, ?_, fun d => ⟨rfl, rfl⟩⟩
  · intro hg
    unfold scanDependencies
    rw [if_neg h1, if_neg h2, if_neg h3, if_pos hg]
  · intro hg hgem
    unfold scanDependencies
    rw [if_neg h1, if_neg h2, if_neg h3, if_neg hg, if_pos hgem]
  · intro hg hgem
    unfold scanDependencies
    rw [if_neg h1, if_neg h2, if_neg h3, if_neg hg, if_neg hgem]

/-- C5 (witness): the amended theorem applied to a `build.gradle` file. -/
theorem C5_unsupported_markers_witness :
    ("build.gradle" : String) ≠ "package.json"
    ∧ ("build.gradle" : String) ≠ "requirements.txt"
    ∧ ("build.gradle" : String) ≠ "pom.xml"
    ∧ (".gradle".data.isSuffixOf ("build.gradle" : String).data
        ∨ ("build.gradle" : String) = "build.gradle")
    ∧ scanDependencies (fun _ => []) (fun _ => .error "e") (fun _ _ _ => .networkError)
        "build.gradle" "c" =
        [unsupportedFinding "build.gradle" "Gradle scanning is not yet implemented."] :=
  ⟨by decide, by decide, by decide, Or.inr rfl,
    (C5_unsupported_markers (fun _ => []) (fun _ => .error "e")
      (fun _ _ _ => .networkError) "build.gradle" "c"
      (by decide) (by decide) (by decide)).1 (Or.inr rfl)⟩

/-- Folding `sum + r.vulnerabilities.length` over the per-file results
equals the initial value plus the sum of the per-file finding counts. -/
theorem foldl_vuln_count (l : List FileScanResult) (n : ℕ) :
    l.foldl (fun sum r => sum + r.vulnerabilities.length) n
      = n + (l.map (fun r => r.vulnerabilities.length)).sum := by
  induction l generalizing n with
  | nil => simp
  | cons a t ih => simp [ih, Nat.add_assoc]

/-- Some per-file result has a positive finding count exactly when the
total count is positive. -/
theorem any_pos_iff_sum_pos (l : List FileScanResult) :
    (l.any (fun r => r.vulnerabilities.length > 0) = true)
      ↔ 0 < (l.map (fun r => r.vulnerabilities.length)).sum := by
  induction l with
  | nil => simp
  | cons a t ih => simp [ih]

/-- C6: the repository report's `totalVulnerabilities` is the sum of the
per-file finding counts, the overall status is `"vulnerable"` exactly
when that sum is positive and `"secure"` exactly when it is zero, the
`processRepo` status over the concatenated findings agrees, and the
claim's two concrete scenarios hold (2 files of 1 finding each are
`vulnerable` with total 2; 2 files of 0 findings each are `secure`). -/
theorem C6_aggregation (results : List FileScanResult) :
    (repoSummary results).totalVulnerabilities
        = (results.map (fun r => r.vulnerabilities.length)).sum
    ∧ ((repoSummary results).status = "vulnerable"
        ↔ 0 < (results.map (fun r => r.vulnerabilities.length)).sum)
    ∧ ((repoSummary results).status = "secure"
        ↔ (results.map (fun r => r.vulnerabilities.length)).sum = 0)
    ∧ processRepoStatus (results.map (fun r => r.vulnerabilities)).flatten
        = (repoSummary results).status
    ∧ (repoSummary [⟨"package.json", [unsupportedFinding "a" "d"], [], none⟩,
        ⟨"requirements.txt", [unsupportedFinding "b" "d"], [], none⟩]).totalVulnerabilities = 2
    ∧ (repoSummary [⟨"package.json", [unsupportedFinding "a" "d"], [], none⟩,
        ⟨"requirements.txt", [unsupportedFinding "b" "d"], [], none⟩]).status = "vulnerable"
    ∧ (repoSummary [⟨"package.json", [], [], none⟩,
        ⟨"requirements.txt", [], [], none⟩]).status = "secure" := by
  have hsum : (repoSummary results).totalVulnerabilities
      = (results.map (fun r => r.vulnerabilities.length)).sum := by
    unfold repoSummary
    simpa using foldl_vuln_count results 0
  have hflat : (results.map (fun r => r.vulnerabilities)).flatten.length
      = (results.map (fun r => r.vulnerabilities.length)).sum := by
    rw [List.length_flatten, List.map_map]
    rfl
  cases ha : results.any (fun r => r.vulnerabilities.length > 0) with
  | false =>
    have hz : (results.map (fun r => r.vulnerabilities.length)).sum = 0 := by
      rcases Nat.eq_zero_or_pos (results.map (fun r => r.vulnerabilities.length)).sum with h | h
      · exact h
      · rw [(any_pos_iff_sum_pos results).mpr h] at ha
        exact Bool.noConfusion ha
    have hstat : (repoSummary results).status = "secure" := by
      unfold repoSummary
      simp [ha]
    refine ⟨hsum, ?_, ?_, ?_, rfl, rfl, rfl⟩
    · rw [hstat, hz]
      simp
    · rw [hstat, hz]
      simp
    · rw [hstat]
      unfold processRepoStatus
      simp [hflat, hz]
  | true =>
    have hp : 0 < (results.map (fun r => r.vulnerabilities.length)).sum :=
      (any_pos_iff_sum_pos results).mp ha
    have hstat : (repoSummary results).status = "vulnerable" := by
      unfold repoSummary
      simp [ha]
    refine ⟨hsum, ?_, ?_, ?_, rfl, rfl, rfl⟩
    · rw [hstat]
      simp [hp]
    · rw [hstat]
      simp
      omega
    · rw [hstat]
      unfold processRepoStatus
      simp [hflat, hp]

/-- C4 (counterexample): the claim says that when no published version is
strictly greater than the current one, the resolver returns the
lexicographically-largest published version; but the code falls back to
`versions[versions.length - 1]`, the last element of the registry's list
in response order. With versions listed as `["2.0.0", "1.0.0"]` and
current version `"3.0.0"` the code returns `"1.0.0"`, although `"2.0.0"`
is published and lexicographically larger. -/
theorem C4_claim_counterexample :
    npmSecureVersion ["2.0.0", "1.0.0"] "3.0.0" = some "1.0.0"
    ∧ ("2.0.0" : String) ∈ ["2.0.0", "1.0.0"]
    ∧ matchesStrictSemver ("2.0.0" : String).data = true
    ∧ jsLtChars ("1.0.0" : String).data ("2.0.0" : String).data = true :=
  ⟨by decide, by decide, by decide, by decide⟩

/-- C4 (amended): in the npm path of `fetchSecureVersion`, the returned
secure version is the lexicographically smallest published version
matching the strict `major.minor.patch` pattern that is strictly greater
(by JS string comparison) than the current version; when no such version
exists, it is the LAST element of the published-version list in registry
response order (not necessarily the lexicographically largest). -/
theorem insertionSort_head_none (l : List String)
    (h : (List.insertionSort jsLe l).head? = none) : l = [] := by
  have hperm := List.perm_insertionSort jsLe l
  rw [List.head?_eq_none_iff.mp h] at hperm
  exact hperm.symm.eq_nil

theorem insertionSort_head_min (l : List String) (v : String)
    (h : (List.insertionSort jsLe l).head? = some v) :
    v ∈ l ∧ ∀ w ∈ l, jsLe v w := by
  cases hs : List.insertionSort jsLe l with
  | nil => rw [hs] at h; exact absurd h (by simp)
  | cons x t =>
    rw [hs] at h
    injection h with hx
    subst hx
    have hperm := List.perm_insertionSort jsLe l
    rw [hs] at hperm
    have hsorted := List.sorted_insertionSort jsLe l
    rw [hs] at hsorted
    constructor
    · exact hperm.mem_iff.mp (List.mem_cons_self _ _)
    · intro w hw
      rcases List.mem_cons.mp (hperm.mem_iff.mpr hw) with heq | hmemt
      · rw [heq]
        exact jsLe_refl _
      · exact (List.sorted_cons.mp hsorted).1 w hmemt

theorem C4_secure_version (versions : List String) (cur v : String)
    (h : npmSecureVersion versions cur = some v) :
    (v ∈ versions ∧ matchesStrictSemver v.data = true
      ∧ jsLtChars cur.data v.data = true
      ∧ ∀ w ∈ versions, matchesStrictSemver w.data = true →
          jsLtChars cur.data w.data = true → jsLe v w)
    ∨ ((∀ w ∈ versions, ¬ (matchesStrictSemver w.data = true
          ∧ jsLtChars cur.data w.data = true))
        ∧ versions.getLast? = some v) := by
  simp only [npmSecureVersion] at h
  have hmem : ∀ w : String,
      w ∈ (versions.filter (fun u => matchesStrictSemver u.data)).filter
        (fun u => jsLtChars cur.data u.data) ↔
      w ∈ versions ∧ matchesStrictSemver w.data = true
        ∧ jsLtChars cur.data w.data = true := by
    intro w
    simp only [List.mem_filter]
    tauto
  cases hh : (List.insertionSort jsLe
      ((versions.filter (fun u => matchesStrictSemver u.data)).filter
        (fun u => jsLtChars cur.data u.data))).head? with
  | none =>
    rw [hh] at h
    simp only [jsOrElse] at h
    right
    have hnil := insertionSort_head_none _ hh
    refine ⟨?_, h⟩
    intro w hw hcontra
    have hin : w ∈ (versions.filter (fun u => matchesStrictSemver u.data)).filter
        (fun u => jsLtChars cur.data u.data) :=
      (hmem w).mpr ⟨hw, hcontra.1, hcontra.2⟩
    rw [hnil] at hin
    exact absurd hin (List.not_mem_nil w)
  | some v0 =>
    obtain ⟨hv0mem, hv0min⟩ := insertionSort_head_min _ _ hh
    have hv0props := (hmem v0).mp hv0mem
    have hne : v0 ≠ "" := by
      intro he
      rw [he] at hv0props
      exact absurd hv0props.2.1 (by decide)
    rw [hh] at h
    simp only [jsOrElse, if_neg hne, Option.some.injEq] at h
    subst h
    left
    refine ⟨hv0props.1, hv0props.2.1, hv0props.2.2, ?_⟩
    intro w hw hm hlt
    exact hv0min w ((hmem w).mpr ⟨hw, hm, hlt⟩)

/-- C4 (witness): the amended resolver theorem applied to a concrete
registry listing where a strictly greater `major.minor.patch` version
exists. -/
theorem C4_secure_version_witness :
    npmSecureVersion ["4.17.10", "4.17.21", "3.0.0"] "4.17.12" = some "4.17.21"
    ∧ ((("4.17.21" : String) ∈ ["4.17.10", "4.17.21", "3.0.0"]
        ∧ matchesStrictSemver ("4.17.21" : String).data = true
        ∧ jsLtChars ("4.17.12" : String).data ("4.17.21" : String).data = true
        ∧ ∀ w ∈ ["4.17.10", "4.17.21", "3.0.0"],
            matchesStrictSemver w.data = true →
            jsLtChars ("4.17.12" : String).data w.data = true → jsLe "4.17.21" w)
      ∨ ((∀ w ∈ ["4.17.10", "4.17.21", "3.0.0"],
            ¬ (matchesStrictSemver w.data = true
              ∧ jsLtChars ("4.17.12" : String).data w.data = true))
          ∧ ["4.17.10", "4.17.21", "3.0.0"].getLast? = some "4.17.21")) :=
  ⟨by decide, C4_secure_version ["4.17.10", "4.17.21", "3.0.0"] "4.17.12" "4.17.21" (by decide)⟩

end Secufix
